import Mathlib

/-!
Verification of the markdown/LaTeX conversion core of `convert.py`.

The Python source is embedded shallowly over `List Char`: every `re.sub`
call becomes a left-to-right scan (`subScanS`) with a head-matcher that
mirrors the corresponding regular expression, `str.replace` becomes
`replaceAll`, `str.split` becomes `pySplit`, and so on.  All recursion is
structural on an explicit fuel argument so that every definition reduces
inside the kernel (`decide` / `rfl` on concrete inputs).
-/

set_option maxRecDepth 8000

namespace ConvertPy

/-- The characters of a string literal, the working representation of text. -/
def chars (s : String) : List Char := s.data

/-- Python `str.isspace` set for the ASCII range, as used by `\s`, `strip()`
and `split()` in `convert.py`. -/
def isPySpace (c : Char) : Bool :=
  c = ' ' || c = '\t' || c = '\n' || c = '\r' || c = '\x0b' || c = '\x0c'

/-- Python `line.strip()`: drop whitespace from both ends. -/
def pyStrip (l : List Char) : List Char :=
  ((l.dropWhile isPySpace).reverse.dropWhile isPySpace).reverse

/-- Python `line.lstrip('>')` from `process_regular_markdown` (line 574). -/
def lstripGT (l : List Char) : List Char := l.dropWhile (fun c => c = '>')

/-- ASCII digit test (`\d` / `[0-9]`). -/
def isDigitCh (c : Char) : Bool := '0' ≤ c && c ≤ '9'

/-- First occurrence of `pat` in `s`: `some (a, b)` with `s = a ++ pat ++ b`
and no earlier occurrence.  Backbone of non-greedy matching and of
`str.find`-style scanning. -/
def splitOnFirst (pat : List Char) : List Char → Option (List Char × List Char)
  | [] => if pat.isEmpty then some ([], []) else none
  | c :: rest =>
    if pat.isPrefixOf (c :: rest) then some ([], (c :: rest).drop pat.length)
    else
      match splitOnFirst pat rest with
      | some (a, b) => some (c :: a, b)
      | none => none

/-- Fueled worker for `replaceAll`. -/
def replaceAllAux (pat repl : List Char) : Nat → List Char → List Char
  | 0, s => s
  | fuel + 1, s =>
    match s with
    | [] => []
    | c :: rest =>
      if pat ≠ [] ∧ pat.isPrefixOf (c :: rest) then
        repl ++ replaceAllAux pat repl fuel ((c :: rest).drop pat.length)
      else
        c :: replaceAllAux pat repl fuel rest

/-- Python `str.replace(pat, repl)`: replace every non-overlapping occurrence,
scanning left to right and continuing after the replaced text. -/
def replaceAll (pat repl s : List Char) : List Char :=
  replaceAllAux pat repl s.length s

/-- Fueled worker for `pySplit`. -/
def pySplitAux (sep : List Char) : Nat → List Char → List (List Char)
  | 0, s => [s]
  | fuel + 1, s =>
    match splitOnFirst sep s with
    | some (a, b) => a :: pySplitAux sep fuel b
    | none => [s]

/-- Python `str.split(sep)` for a non-empty separator. -/
def pySplit (sep s : List Char) : List (List Char) :=
  pySplitAux sep (s.length + 1) s

/-- Python `'\n'.join(parts)`. -/
def joinNL (parts : List (List Char)) : List Char :=
  List.intercalate ['\n'] parts

/-- One `re.sub` pass with replacement state `σ`.  The head-matcher `tm`
receives the current state, the character just before the current position in
the source (for look-behind assertions) and the remaining text; on `some
(repl, n, st)` the scan emits `repl`, consumes `n ≥ 1` characters and
continues with state `st`, otherwise it emits one character and moves on.
Fuel is structural; callers pass the text length, which suffices since every
step consumes at least one character. -/
def subScanS {σ : Type} (tm : σ → Option Char → List Char → Option (List Char × Nat × σ)) :
    Nat → σ → Option Char → List Char → List Char × σ
  | 0, st, _, s => (s, st)
  | _ + 1, st, _, [] => ([], st)
  | fuel + 1, st, prv, c :: rest =>
    match tm st prv (c :: rest) with
    | some (repl, n + 1, st2) =>
      let r := subScanS tm fuel st2 (some ((c :: rest).getD n c)) (rest.drop n)
      (repl ++ r.1, r.2)
    | _ =>
      let r := subScanS tm fuel st (some c) rest
      (c :: r.1, r.2)

/-- Stateless `re.sub` pass. -/
def subScan (tm : Option Char → List Char → Option (List Char × Nat)) (s : List Char) : List Char :=
  (subScanS (fun (_ : Unit) prv l => (tm prv l).map (fun p => (p.1, p.2, ()))) s.length () none s).1

/-- The four math-block kinds of `convert_markdown_to_html`, in the strings
passed to `placeholder_format` at the call sites ("align", "env", "display",
"inline"). -/
inductive Kind where
  | align
  | env
  | display
  | inlineM
deriving DecidableEq

/-- The kind string used in the placeholder. -/
def kindStr : Kind → List Char
  | Kind.align => chars "align"
  | Kind.env => chars "env"
  | Kind.display => chars "display"
  | Kind.inlineM => chars "inline"

/-- Fueled decimal rendering, most-significant digit first. -/
def natToDecAux : Nat → Nat → List Char
  | 0, _ => []
  | fuel + 1, n =>
    if n = 0 then [] else natToDecAux fuel (n / 10) ++ [Nat.digitChar (n % 10)]

/-- Decimal rendering of a `Nat`, as Python `str.format` prints `block_id`. -/
def natToDec (n : Nat) : List Char :=
  if n = 0 then ['0'] else natToDecAux n n

/-- `placeholder_format.format(i, kind)` from line 390:
`"MATH_PLACEHOLDER_{}_TYPE_{}"`. -/
def placeholder_format (i : Nat) (k : Kind) : List Char :=
  chars "MATH_PLACEHOLDER_" ++ natToDec i ++ chars "_TYPE_" ++ kindStr k

/-- The mutable extraction state of `convert_markdown_to_html`: the ordered
`math_blocks` list and the `has_math` flag. -/
structure MState where
  blocks : List (Kind × List Char)
  hasMath : Bool

/-- Initial extraction state (`math_blocks = []`, `has_math = False`). -/
def emptyM : MState := { blocks := [], hasMath := false }

/-- Append one extracted block and raise the `has_math` flag, as every
`extract_*` closure in the source does. -/
def pushBlock (st : MState) (k : Kind) (content : List Char) : MState :=
  { blocks := st.blocks ++ [(k, content)], hasMath := true }

def beginAlign : List Char := chars "\\begin\x7balign\x7d"
def endAlign : List Char := chars "\\end\x7balign\x7d"
def beginAlignStar : List Char := chars "\\begin\x7balign*\x7d"
def endAlignStar : List Char := chars "\\end\x7balign*\x7d"
def beginTok : List Char := chars "\\begin\x7b"

/-- Head matcher for `re.sub(r'\\begin\{align\}(.*?)\\end\{align\}', extract_align_env, ...)`
(lines 407-420): non-greedy body, `DOTALL`; the whole match is stored after
rewriting `align` to `align*`, and is replaced by a placeholder built from the
running block counter. -/
def extract_align_env (st : MState) (_prv : Option Char) (s : List Char) :
    Option (List Char × Nat × MState) :=
  if beginAlign.isPrefixOf s then
    match splitOnFirst endAlign (s.drop beginAlign.length) with
    | some (mid, _) =>
      let whole := beginAlign ++ mid ++ endAlign
      let content := replaceAll endAlign endAlignStar (replaceAll beginAlign beginAlignStar whole)
      some (placeholder_format st.blocks.length Kind.align, whole.length,
        pushBlock st Kind.align content)
    | none => none
  else none

/-- Head matcher for `re.sub(r'\\begin\{([^}]+)\}(.*?)\\end\{\1\}', extract_other_env, ...)`
(lines 423-432): any non-empty environment name (no `}`), non-greedy body up
to the matching literal `\end{name}`; the whole match is stored verbatim. -/
def extract_other_env (st : MState) (_prv : Option Char) (s : List Char) :
    Option (List Char × Nat × MState) :=
  if beginTok.isPrefixOf s then
    let afterB := s.drop beginTok.length
    let name := afterB.takeWhile (fun c => c ≠ '\x7d')
    if name ≠ [] ∧ (afterB.drop name.length).head? = some '\x7d' then
      let afterName := afterB.drop (name.length + 1)
      let endTokN := chars "\\end\x7b" ++ name ++ ['\x7d']
      match splitOnFirst endTokN afterName with
      | some (mid, _) =>
        let whole := beginTok ++ name ++ ['\x7d'] ++ mid ++ endTokN
        some (placeholder_format st.blocks.length Kind.env, whole.length,
          pushBlock st Kind.env whole)
      | none => none
    else none
  else none

/-- Head matcher for `re.sub(r'\$\$(.*?)\$\$', extract_display_math, ...)`
(lines 435-442): non-greedy body (possibly empty, `DOTALL`); only the body
(`group(1)`) is stored. -/
def extract_display_math (st : MState) (_prv : Option Char) (s : List Char) :
    Option (List Char × Nat × MState) :=
  if (chars "$$").isPrefixOf s then
    match splitOnFirst (chars "$$") (s.drop 2) with
    | some (body, _) =>
      some (placeholder_format st.blocks.length Kind.display, body.length + 4,
        pushBlock st Kind.display body)
    | none => none
  else none

/-- Head matcher for `re.sub(r'(?<!\$)\$([^$\n]+?)\$(?!\$)', extract_inline_math, ...)`
(lines 445-452): a `$` not preceded by `$`, a non-empty single-line body with
no `$`, a closing `$` not followed by `$`; the body is stored. -/
def extract_inline_math (st : MState) (prv : Option Char) (s : List Char) :
    Option (List Char × Nat × MState) :=
  if prv = some '$' then none
  else
    match s with
    | '$' :: rest =>
      let body := rest.takeWhile (fun c => c ≠ '$' && c ≠ '\n')
      if body ≠ [] ∧ (rest.drop body.length).head? = some '$' ∧
          (rest.drop (body.length + 1)).head? ≠ some '$' then
        some (placeholder_format st.blocks.length Kind.inlineM, body.length + 2,
          pushBlock st Kind.inlineM body)
      else none
    | _ => none

/-- Head matcher for the main-body parenthesis guard
`re.sub(r'\(([^)]*)\)', r'<span class="notmath">(\1)</span>', ...)` (line 455):
a possibly-empty body with no `)` up to the first closing parenthesis. -/
def parenTM (_prv : Option Char) (s : List Char) : Option (List Char × Nat) :=
  match s with
  | '(' :: rest =>
    let body := rest.takeWhile (fun c => c ≠ ')')
    if (rest.drop body.length).head? = some ')' then
      some (chars "<span class=\"notmath\">(" ++ body ++ chars ")</span>", body.length + 2)
    else none
  | _ => none

/-- Head matcher for the main-body citation guard
`re.sub(r'\[(\d+)\]', escape_citation, ...)` (lines 461-467). -/
def citationTM (_prv : Option Char) (s : List Char) : Option (List Char × Nat) :=
  match s with
  | '[' :: rest =>
    let ds := rest.takeWhile isDigitCh
    if ds ≠ [] ∧ (rest.drop ds.length).head? = some ']' then
      some (chars "<span class=\"notmath\">[" ++ ds ++ chars "]</span>", ds.length + 2)
    else none
  | _ => none

/-- Heading replacement of `process_regular_markdown` (lines 556-559): the
four `MULTILINE` substitutions `^#{1..4} (.+)$` act line by line and are
mutually exclusive on any one line. -/
def headingLine (l : List Char) : List Char :=
  if (chars "# ").isPrefixOf l ∧ l.drop 2 ≠ [] then
    chars "<h1>" ++ l.drop 2 ++ chars "</h1>"
  else if (chars "## ").isPrefixOf l ∧ l.drop 3 ≠ [] then
    chars "<h2>" ++ l.drop 3 ++ chars "</h2>"
  else if (chars "### ").isPrefixOf l ∧ l.drop 4 ≠ [] then
    chars "<h3>" ++ l.drop 4 ++ chars "</h3>"
  else if (chars "#### ").isPrefixOf l ∧ l.drop 5 ≠ [] then
    chars "<h4>" ++ l.drop 5 ++ chars "</h4>"
  else l

/-- One iteration of the line-scanning loop of `process_regular_markdown`
(lines 567-592), returning the new `(in_list, in_blockquote)` flags and the
lines appended to `result`.  Note the blockquote branch `continue`s without
consulting or closing an open list. -/
def mdLineStep (inL inB : Bool) (line : List Char) : Bool × Bool × List (List Char) :=
  let stripped := pyStrip line
  if stripped.head? = some '>' then
    (inL, true,
      (if inB then [] else [chars "<blockquote>"]) ++ [pyStrip (lstripGT stripped)])
  else
    let closeB := if inB then [chars "</blockquote>"] else []
    if (chars "- ").isPrefixOf stripped then
      (true, false,
        closeB ++ (if inL then [] else [chars "<ul>"]) ++
          [chars "<li>" ++ stripped.drop 2 ++ chars "</li>"])
    else
      (false, false, closeB ++ (if inL then [chars "</ul>"] else []) ++ [line])

/-- The whole line scan: emitted lines plus the final flags. -/
def mdScanLines : Bool → Bool → List (List Char) → List (List Char) × Bool × Bool
  | inL, inB, [] => ([], inL, inB)
  | inL, inB, l :: ls =>
    let step := mdLineStep inL inB l
    let rest := mdScanLines step.1 step.2.1 ls
    (step.2.2 ++ rest.1, rest.2)

/-- The `(in_list, in_blockquote)` state after each processed line — the
reachable states of the scanning state machine. -/
def mdStates : Bool → Bool → List (List Char) → List (Bool × Bool)
  | _, _, [] => []
  | inL, inB, l :: ls =>
    let step := mdLineStep inL inB l
    (step.1, step.2.1) :: mdStates step.1 step.2.1 ls

/-- Head matcher for `re.sub(r'\*\*(.+?)\*\*', r'<strong>\1</strong>', ...)`
(line 602): non-greedy single-line body of at least one character. -/
def boldTM (_prv : Option Char) (s : List Char) : Option (List Char × Nat) :=
  if (chars "**").isPrefixOf s then
    match s.drop 2 with
    | [] => none
    | c0 :: tail =>
      match splitOnFirst (chars "**") tail with
      | some (b, _) =>
        let body := c0 :: b
        if body.contains '\n' then none
        else some (chars "<strong>" ++ body ++ chars "</strong>", body.length + 4)
      | none => none
  else none

/-- Closing-star search for the italics rule: find the shortest non-empty
single-line body such that the next `*` is not followed by `)`
(the `(.+?)\*(?!\))` part of line 604). -/
def italicSplit : List Char → Option (List Char × List Char)
  | [] => none
  | c :: rest =>
    if c = '\n' then none
    else
      match rest with
      | '*' :: rest2 =>
        if rest2.head? = some ')' then
          (italicSplit rest).map (fun p => (c :: p.1, p.2))
        else some ([c], rest2)
      | _ => (italicSplit rest).map (fun p => (c :: p.1, p.2))

/-- Head matcher for `re.sub(r'(?<!\()\*(.+?)\*(?!\))', r'<em>\1</em>', ...)`
(line 604): an opening `*` not preceded by `(`, then `italicSplit`. -/
def italicTM (prv : Option Char) (s : List Char) : Option (List Char × Nat) :=
  if prv = some '(' then none
  else
    match s with
    | '*' :: rest =>
      match italicSplit rest with
      | some (body, _) => some (chars "<em>" ++ body ++ chars "</em>", body.length + 2)
      | none => none
    | _ => none

/-- Second-group search for the link rule: the shortest non-empty single-line
text before a closing `)` (the `\((.+?)\)` part of line 607). -/
def linkClose2 : List Char → Option (List Char × List Char)
  | [] => none
  | c :: rest =>
    if c = '\n' then none
    else
      match rest with
      | ')' :: rest2 => some ([c], rest2)
      | _ => (linkClose2 rest).map (fun p => (c :: p.1, p.2))

/-- First-group search for the link rule `\[(.+?)\]\((.+?)\)`: grow the link
text until a `](` is found whose parenthesised part also matches. -/
def linkSplit : List Char → Option (List Char × List Char × List Char)
  | [] => none
  | c :: rest =>
    if c = '\n' then none
    else
      match rest with
      | ']' :: '(' :: rest2 =>
        match linkClose2 rest2 with
        | some (g2, r) => some ([c], g2, r)
        | none => (linkSplit rest).map (fun p => (c :: p.1, p.2))
      | _ => (linkSplit rest).map (fun p => (c :: p.1, p.2))

/-- Head matcher for `re.sub(r'\[(.+?)\]\((.+?)\)', r'<a href="\2">\1</a>', ...)`
(line 607). -/
def linkTM (_prv : Option Char) (s : List Char) : Option (List Char × Nat) :=
  match s with
  | '[' :: rest =>
    match linkSplit rest with
    | some (g1, g2, _) =>
      some (chars "<a href=\"" ++ g2 ++ chars "\">" ++ g1 ++ chars "</a>",
        g1.length + g2.length + 4)
    | none => none
  | _ => none

/-- Paragraph wrapping of `process_regular_markdown` (lines 609-616): a
blank-line-separated segment becomes `<p>trimmed</p>` unless its trimmed form
is empty, starts with `<` or ends with `>`. -/
def paraWrap (p : List Char) : List Char :=
  let t := pyStrip p
  if t ≠ [] ∧ t.head? ≠ some '<' ∧ t.getLast? ≠ some '>' then
    chars "<p>" ++ t ++ chars "</p>"
  else p

/-- `process_regular_markdown` (lines 553-616): headings, the list/blockquote
line machine, bold, italics, links, then paragraph wrapping. -/
def process_regular_markdown (text : List Char) : List Char :=
  let t1 := joinNL ((pySplit ['\n'] text).map headingLine)
  let scan := mdScanLines false false (pySplit ['\n'] t1)
  let withEnd := scan.1 ++ (if scan.2.1 then [chars "</ul>"] else []) ++
    (if scan.2.2 then [chars "</blockquote>"] else [])
  let t2 := joinNL withEnd
  let t3 := subScan boldTM t2
  let t4 := subScan italicTM t3
  let t5 := subScan linkTM t4
  joinNL ((pySplit (chars "\n\n") t5).map paraWrap)

/-- Heading replacement used inside the References section (lines 475-477):
only `#`, `##`, `###` are handled there. -/
def refHeadingLine (l : List Char) : List Char :=
  if (chars "# ").isPrefixOf l ∧ l.drop 2 ≠ [] then
    chars "<h1>" ++ l.drop 2 ++ chars "</h1>"
  else if (chars "## ").isPrefixOf l ∧ l.drop 3 ≠ [] then
    chars "<h2>" ++ l.drop 3 ++ chars "</h2>"
  else if (chars "### ").isPrefixOf l ∧ l.drop 4 ≠ [] then
    chars "<h3>" ++ l.drop 4 ++ chars "</h3>"
  else l

/-- Head matcher for the References citation rule (line 480):
`\[(\d+)\]` wrapped in the nested `citation-number`/`bracket-content` spans. -/
def refCitationTM (_prv : Option Char) (s : List Char) : Option (List Char × Nat) :=
  match s with
  | '[' :: rest =>
    let ds := rest.takeWhile isDigitCh
    if ds ≠ [] ∧ (rest.drop ds.length).head? = some ']' then
      some (chars "<span class=\"citation-number\"><span class=\"bracket-content\">[<em><strong>" ++
        ds ++ chars "</strong></em>]</span></span>", ds.length + 2)
    else none
  | _ => none

/-- Head matcher for the References descriptive-bracket rule (line 483):
`\[([^\]0-9][^\]]*)\]` — first inner character neither a digit nor `]`,
greedy body up to the first `]`. -/
def refBracketTM (_prv : Option Char) (s : List Char) : Option (List Char × Nat) :=
  match s with
  | '[' :: c0 :: rest =>
    if c0 = ']' ∨ isDigitCh c0 then none
    else
      let more := rest.takeWhile (fun c => c ≠ ']')
      if (rest.drop more.length).head? = some ']' then
        let body := c0 :: more
        some (chars "<span class=\"bracket-content\">[<em>" ++ body ++ chars "</em>]</span>",
          body.length + 2)
      else none
  | _ => none

/-- Head matcher for the References parenthesis rule (line 486):
`\(([^)]*)\)` replaced by HTML numeric entities. -/
def refParenTM (_prv : Option Char) (s : List Char) : Option (List Char × Nat) :=
  match s with
  | '(' :: rest =>
    let body := rest.takeWhile (fun c => c ≠ ')')
    if (rest.drop body.length).head? = some ')' then
      some (chars "&#40;" ++ body ++ chars "&#41;", body.length + 2)
    else none
  | _ => none

/-- Head matcher for the References URL rule (line 492):
`(https?://\S+)` becomes a link to itself. -/
def urlTM (_prv : Option Char) (s : List Char) : Option (List Char × Nat) :=
  let scheme :=
    if (chars "https://").isPrefixOf s then some (chars "https://")
    else if (chars "http://").isPrefixOf s then some (chars "http://")
    else none
  match scheme with
  | some sch =>
    let tail := (s.drop sch.length).takeWhile (fun c => !isPySpace c)
    if tail ≠ [] then
      let url := sch ++ tail
      some (chars "<a href=\"" ++ url ++ chars "\">" ++ url ++ chars "</a>", url.length)
    else none
  | none => none

/-- References paragraph wrapping (lines 495-502): a segment is wrapped —
untrimmed — in `<p>...</p>` unless its trimmed form is empty or starts with
`<h`. -/
def refParaWrap (p : List Char) : List Char :=
  if pyStrip p ≠ [] ∧ ¬ (chars "<h").isPrefixOf (pyStrip p) then
    chars "<p>" ++ p ++ chars "</p>"
  else p

/-- Opening part of the References container (lines 505-514), up to the point
where the processed references are interpolated. -/
def refsDivOpen : List Char :=
  chars ("<div class=\"references\" data-mathjax=\"ignore\">\n    <style>\n" ++
    "        /* Prevent MathJax from interfering with reference formatting */\n" ++
    "        .references .citation-number strong \x7b font-weight: bold; font-style: normal; \x7d\n" ++
    "        .references .bracket-content em \x7b font-style: italic; font-weight: normal; \x7d\n" ++
    "        .references p \x7b font-weight: normal; \x7d\n" ++
    "        .references span \x7b font-weight: normal; \x7d\n" ++
    "        .references \x7b font-weight: normal; \x7d\n" ++
    "    </style>\n    ")

/-- Closing part of the References container (line 515). -/
def refsDivClose : List Char := chars "\n</div>"

/-- The References-section specializer (lines 470-515): headings, the two
bracket rules, entity-escaped parentheses, authoring-artifact cleanup, URLs,
paragraphs, then the typesetting-exempt container. -/
def references_block (r : List Char) : List Char :=
  let p1 := joinNL ((pySplit ['\n'] r).map refHeadingLine)
  let p2 := subScan refCitationTM p1
  let p3 := subScan refBracketTM p2
  let p4 := subScan refParenTM p3
  let p5 := replaceAll (chars "\\/") (chars "/")
    (replaceAll (chars "\\>") (chars ">") (replaceAll (chars "\\<") (chars "<") p4))
  let p6 := subScan urlTM p5
  let p7 := joinNL ((pySplit (chars "\n\n") p6).map refParaWrap)
  refsDivOpen ++ p7 ++ refsDivClose

/-- Does `^(#+)\s+References` (IGNORECASE) match at this position?  Matching
the maximal runs is exact: backtracking inside `#+`/`\s+` cannot help, and the
trailing `:?.*$` always succeeds. -/
def refHeadingAt (s : List Char) : Bool :=
  let hs := s.takeWhile (fun c => c = '#')
  if hs.isEmpty then false
  else
    let rest := s.drop hs.length
    let ws := rest.takeWhile isPySpace
    if ws.isEmpty then false
    else (chars "references").isPrefixOf ((rest.drop ws.length).map Char.toLower)

/-- Worker for `refSplit`: scan the positions where `^` can match
(start of text and after each newline) for the first References heading. -/
def findRefSplit : List Char → Bool → List Char → Option (List Char × List Char)
  | _, _, [] => none
  | acc, atStart, c :: rest =>
    if atStart ∧ refHeadingAt (c :: rest) then some (acc.reverse, c :: rest)
    else findRefSplit (c :: acc) (c = '\n') rest

/-- The References split of lines 395-404: `re.search`/`re.split` on
`^(#+)\s+References:?.*$` with `MULTILINE | IGNORECASE` and `maxsplit=1`.
Returns `(main_body, references_section)`; the references section is the
heading line plus everything after it (`parts[1] + parts[2]`). -/
def refSplit (s : List Char) : Option (List Char × List Char) :=
  findRefSplit [] true s

/-- The restitution loop of lines 521-539: walk the enumerated block list,
escape backslashes once, rewrap per kind and `str.replace` the placeholder. -/
def restoreBlocks : Nat → List (Kind × List Char) → List Char → List Char
  | _, [], t => t
  | i, (k, content) :: bs, t =>
    let escaped := replaceAll (chars "\\") (chars "\\\\") content
    let replacement :=
      match k with
      | Kind.align => chars "$$" ++ escaped ++ chars "$$"
      | Kind.env => chars "$$" ++ escaped ++ chars "$$"
      | Kind.display => chars "$$" ++ escaped ++ chars "$$"
      | Kind.inlineM => chars "$" ++ escaped ++ chars "$"
    restoreBlocks (i + 1) bs (replaceAll (placeholder_format i k) replacement t)

/-- The MathJax reprocessing script appended when `has_math` (lines 543-549). -/
def mathJaxScript : List Char :=
  chars ("\n<script>\nif (window.MathJax) \x7b\n" ++
    "    MathJax.Hub.Queue([\"Typeset\", MathJax.Hub]);\n\x7d\n</script>\n")

/-- One `re.sub` extraction pass over the main body, threading `math_blocks`
and `has_math`. -/
def runExtract (tm : MState → Option Char → List Char → Option (List Char × Nat × MState))
    (st : MState) (s : List Char) : List Char × MState :=
  subScanS tm s.length st none s

/-- The four extraction passes in source order: align environments, other
environments, display math, inline math (lines 419-452). -/
def extractAllPasses (s : List Char) : List Char × MState :=
  let r1 := runExtract extract_align_env emptyM s
  let r2 := runExtract extract_other_env r1.2 r1.1
  let r3 := runExtract extract_display_math r2.2 r2.1
  let r4 := runExtract extract_inline_math r3.2 r3.1
  r4

/-- The main body handed to the pipeline: everything before the References
heading, or the whole text when there is none (lines 398-404). -/
def mainBodyOf (md : List Char) : List Char :=
  match refSplit md with
  | some (before, _) => before
  | none => md

/-- The References section, when present. -/
def refsOf (md : List Char) : Option (List Char) :=
  (refSplit md).map (fun p => p.2)

/-- `convert_markdown_to_html` up to (and excluding) the conditional MathJax
script append: extraction, parenthesis guard, markdown rendering, citation
guard, References merge, restitution.  Returns the text plus the final
extraction state. -/
def convertCore (md : List Char) : List Char × MState :=
  let ex := extractAllPasses (mainBodyOf md)
  let t5 := subScan parenTM ex.1
  let t6 := process_regular_markdown t5
  let t7 := subScan citationTM t6
  let t8 :=
    match refsOf md with
    | some r => t7 ++ references_block r
    | none => t7
  (restoreBlocks 0 ex.2.blocks t8, ex.2)

/-- `convert_markdown_to_html` (lines 382-551). -/
def convert_markdown_to_html (md : List Char) : List Char :=
  let r := convertCore md
  if r.2.hasMath then r.1 ++ mathJaxScript else r.1

/-- Modelled from the spec wording of the claim: the same pipeline but with
BOTH guards (parentheses and numeric citations) applied after math extraction
and before `process_regular_markdown` runs.  Used only to compare the claimed
phase order against the source order. -/
def convertClaimOrderC3 (md : List Char) : List Char :=
  let ex := extractAllPasses (mainBodyOf md)
  let t5 := subScan parenTM ex.1
  let t5b := subScan citationTM t5
  let t6 := process_regular_markdown t5b
  let t8 :=
    match refsOf md with
    | some r => t6 ++ references_block r
    | none => t6
  let t9 := restoreBlocks 0 ex.2.blocks t8
  if ex.2.hasMath then t9 ++ mathJaxScript else t9

/-- Substring test: does `pat` occur contiguously inside the second list? -/
def containsSub (pat : List Char) : List Char → Bool
  | [] => pat.isEmpty
  | c :: rest => pat.isPrefixOf (c :: rest) || containsSub pat rest

/-- Parse a decimal-digit string back to a number; left inverse of
`natToDec`, used to prove placeholder injectivity. -/
def decVal (l : List Char) : Nat :=
  l.foldl (fun a c => a * 10 + (c.toNat - 48)) 0

theorem isEmpty_append_one {α : Type} (l : List α) (b : α) : (l ++ [b]).isEmpty = false := by
  cases l <;> rfl

theorem pushBlock_flag (st : MState) (k : Kind) (c : List Char) :
    (pushBlock st k c).hasMath = !(pushBlock st k c).blocks.isEmpty := by
  simp [pushBlock, isEmpty_append_one]

theorem digitChar_toNat_sub : ∀ d, d < 10 → (Nat.digitChar d).toNat - 48 = d := by decide

theorem digitChar_ne_underscore : ∀ d, d < 10 → Nat.digitChar d ≠ '_' := by decide

theorem decVal_append_digit (xs : List Char) (c : Char) :
    decVal (xs ++ [c]) = decVal xs * 10 + (c.toNat - 48) := by
  simp [decVal, List.foldl_append]

theorem natToDecAux_val : ∀ (fuel n : Nat), n ≤ fuel → decVal (natToDecAux fuel n) = n := by
  intro fuel
  induction fuel with
  | zero =>
    intro n h
    have h0 : n = 0 := Nat.le_zero.mp h
    subst h0; rfl
  | succ fuel ih =>
    intro n h
    by_cases h0 : n = 0
    · subst h0; rfl
    · have hlt : n / 10 < n := Nat.div_lt_self (Nat.pos_of_ne_zero h0) (by norm_num)
      have hle : n / 10 ≤ fuel := by omega
      have hstep : natToDecAux (fuel + 1) n =
          natToDecAux fuel (n / 10) ++ [Nat.digitChar (n % 10)] := by
        simp [natToDecAux, h0]
      rw [hstep, decVal_append_digit, ih _ hle,
        digitChar_toNat_sub _ (Nat.mod_lt _ (by norm_num))]
      have := Nat.div_add_mod n 10
      omega

theorem decVal_natToDec (n : Nat) : decVal (natToDec n) = n := by
  unfold natToDec
  by_cases h : n = 0
  · subst h; rfl
  · simp only [h, if_false]
    exact natToDecAux_val n n le_rfl

theorem natToDec_inj {i j : Nat} (h : natToDec i = natToDec j) : i = j := by
  have h2 := congrArg decVal h
  rwa [decVal_natToDec, decVal_natToDec] at h2

theorem natToDecAux_no_underscore :
    ∀ (fuel n : Nat), ∀ c ∈ natToDecAux fuel n, c ≠ '_' := by
  intro fuel
  induction fuel with
  | zero => intro n c hc; simp [natToDecAux] at hc
  | succ fuel ih =>
    intro n c hc
    by_cases h0 : n = 0
    · subst h0; simp [natToDecAux] at hc
    · simp only [natToDecAux, h0, if_false, List.mem_append, List.mem_singleton] at hc
      rcases hc with hc | hc
      · exact ih _ _ hc
      · subst hc
        exact digitChar_ne_underscore _ (Nat.mod_lt _ (by norm_num))

theorem natToDec_no_underscore (n : Nat) : ∀ c ∈ natToDec n, c ≠ '_' := by
  intro c hc
  unfold natToDec at hc
  by_cases h : n = 0
  · simp [h] at hc; subst hc; decide
  · simp only [h, if_false] at hc
    exact natToDecAux_no_underscore n n c hc

theorem append_underscore_inj : ∀ (a b x y : List Char),
    (∀ c ∈ a, c ≠ '_') → (∀ c ∈ b, c ≠ '_') →
    a ++ '_' :: x = b ++ '_' :: y → a = b ∧ x = y := by
  intro a
  induction a with
  | nil =>
    intro b x y _ hb h
    cases b with
    | nil => simpa using h
    | cons d b2 =>
      simp only [List.nil_append, List.cons_append, List.cons.injEq] at h
      exact absurd h.1.symm (hb d (by simp))
  | cons c a2 ih =>
    intro b x y ha hb h
    cases b with
    | nil =>
      simp only [List.nil_append, List.cons_append, List.cons.injEq] at h
      exact absurd h.1 (ha c (by simp))
    | cons d b2 =>
      simp only [List.cons_append, List.cons.injEq] at h
      obtain ⟨hcd, hrest⟩ := h
      subst hcd
      obtain ⟨h1, h2⟩ := ih b2 x y (fun e he => ha e (by simp [he]))
        (fun e he => hb e (by simp [he])) hrest
      exact ⟨by rw [h1], h2⟩

theorem kindStr_inj {k k2 : Kind} (h : kindStr k = kindStr k2) : k = k2 := by
  cases k <;> cases k2 <;> first
    | rfl
    | exact absurd h (by decide)

theorem placeholder_format_inj {i j : Nat} {k k2 : Kind}
    (h : placeholder_format i k = placeholder_format j k2) : i = j ∧ k = k2 := by
  unfold placeholder_format at h
  have h0 : chars "MATH_PLACEHOLDER_" ++ (natToDec i ++ (chars "_TYPE_" ++ kindStr k)) =
      chars "MATH_PLACEHOLDER_" ++ (natToDec j ++ (chars "_TYPE_" ++ kindStr k2)) := by
    simpa [List.append_assoc] using h
  have h1 : natToDec i ++ (chars "_TYPE_" ++ kindStr k) =
      natToDec j ++ (chars "_TYPE_" ++ kindStr k2) := List.append_cancel_left h0
  have h2 : natToDec i ++ '_' :: (chars "TYPE_" ++ kindStr k) =
      natToDec j ++ '_' :: (chars "TYPE_" ++ kindStr k2) := by
    simpa [show chars "_TYPE_" = '_' :: chars "TYPE_" from rfl, List.cons_append] using h1
  obtain ⟨hd, ht⟩ := append_underscore_inj _ _ _ _
    (natToDec_no_underscore i) (natToDec_no_underscore j) h2
  exact ⟨natToDec_inj hd, kindStr_inj (List.append_cancel_left ht)⟩

theorem subScanS_state_invariant {σ : Type} (P : σ → Prop)
    (tm : σ → Option Char → List Char → Option (List Char × Nat × σ))
    (htm : ∀ st prv s out, tm st prv s = some out → P st → P out.2.2) :
    ∀ (fuel : Nat) (st : σ) (prv : Option Char) (s : List Char),
      P st → P (subScanS tm fuel st prv s).2 := by
  intro fuel
  induction fuel with
  | zero => intro st prv s h; simpa [subScanS] using h
  | succ fuel ih =>
    intro st prv s h
    cases s with
    | nil => simpa [subScanS] using h
    | cons c rest =>
      cases heq : tm st prv (c :: rest) with
      | none => simpa [subScanS, heq] using ih st (some c) rest h
      | some out =>
        obtain ⟨repl, n, st2⟩ := out
        cases n with
        | zero => simpa [subScanS, heq] using ih st (some c) rest h
        | succ m =>
          simpa [subScanS, heq] using
            ih st2 (some ((c :: rest).getD m c)) (rest.drop m) (htm _ _ _ _ heq h)

theorem extract_align_env_flag (st : MState) (prv : Option Char) (s : List Char) (out)
    (h : extract_align_env st prv s = some out) (_hst : st.hasMath = !st.blocks.isEmpty) :
    out.2.2.hasMath = !out.2.2.blocks.isEmpty := by
  unfold extract_align_env at h
  try dsimp only at h
  split at h
  · split at h
    · cases h; exact pushBlock_flag ..
    · cases h
  · cases h

theorem extract_other_env_flag (st : MState) (prv : Option Char) (s : List Char) (out)
    (h : extract_other_env st prv s = some out) (_hst : st.hasMath = !st.blocks.isEmpty) :
    out.2.2.hasMath = !out.2.2.blocks.isEmpty := by
  unfold extract_other_env at h
  try dsimp only at h
  split at h
  · split at h
    · split at h
      · cases h; exact pushBlock_flag ..
      · cases h
    · cases h
  · cases h

theorem extract_display_math_flag (st : MState) (prv : Option Char) (s : List Char) (out)
    (h : extract_display_math st prv s = some out) (_hst : st.hasMath = !st.blocks.isEmpty) :
    out.2.2.hasMath = !out.2.2.blocks.isEmpty := by
  unfold extract_display_math at h
  try dsimp only at h
  split at h
  · split at h
    · cases h; exact pushBlock_flag ..
    · cases h
  · cases h

theorem extract_inline_math_flag (st : MState) (prv : Option Char) (s : List Char) (out)
    (h : extract_inline_math st prv s = some out) (_hst : st.hasMath = !st.blocks.isEmpty) :
    out.2.2.hasMath = !out.2.2.blocks.isEmpty := by
  unfold extract_inline_math at h
  try dsimp only at h
  split at h
  · cases h
  · split at h
    · split at h
      · cases h; exact pushBlock_flag ..
      · cases h
    · cases h

theorem extractAllPasses_flag (s : List Char) :
    (extractAllPasses s).2.hasMath = !(extractAllPasses s).2.blocks.isEmpty := by
  have h0 : emptyM.hasMath = !emptyM.blocks.isEmpty := rfl
  unfold extractAllPasses runExtract
  exact subScanS_state_invariant (fun st => st.hasMath = !st.blocks.isEmpty) _
    (fun st prv t out heq hp => extract_inline_math_flag st prv t out heq hp) _ _ _ _
    (subScanS_state_invariant (fun st => st.hasMath = !st.blocks.isEmpty) _
      (fun st prv t out heq hp => extract_display_math_flag st prv t out heq hp) _ _ _ _
      (subScanS_state_invariant (fun st => st.hasMath = !st.blocks.isEmpty) _
        (fun st prv t out heq hp => extract_other_env_flag st prv t out heq hp) _ _ _ _
        (subScanS_state_invariant (fun st => st.hasMath = !st.blocks.isEmpty) _
          (fun st prv t out heq hp => extract_align_env_flag st prv t out heq hp) _ _ _ _ h0)))

theorem convertCore_state (md : List Char) :
    (convertCore md).2 = (extractAllPasses (mainBodyOf md)).2 := rfl

theorem head_lstripGT (l : List Char) : (lstripGT l).head? ≠ some '>' := by
  induction l with
  | nil => simp [lstripGT]
  | cons c rest ih =>
    by_cases h : c = '>'
    · simpa [lstripGT, List.dropWhile_cons, h] using ih
    · simp [lstripGT, List.dropWhile_cons, h]

/-- C1: for the spec's own test input containing a display-math block whose
body holds a markdown-significant `*` — `$$ a * b $$` — all math extraction
happens before any markdown rule runs, so the output carries the math body
verbatim (no backslash present, hence the doubling layer is invisible) and no
emphasis markup is ever produced. -/
theorem c1_display_math_protected_from_markdown :
    convert_markdown_to_html (chars "$$ a * b $$") =
      chars "<p>$$ a * b $$</p>" ++ mathJaxScript ∧
    containsSub (chars "$$ a * b $$") (convert_markdown_to_html (chars "$$ a * b $$")) = true ∧
    containsSub (chars "<em>") (convert_markdown_to_html (chars "$$ a * b $$")) = false := by
  refine ⟨by decide, by decide, by decide⟩

/-- C2 (counterexample): for nested mathematics
`$$\begin{cases}x\end{cases}$$` the inner environment's placeholder is
swallowed into the display block's stored content, is never replaced during
restitution, and survives literally in the final output — refuting both
"each placeholder occurs exactly once in the text handed to the renderer"
and "no placeholder token remains in the final output". -/
theorem c2_counterexample_nested_placeholder_remains :
    containsSub (placeholder_format 0 Kind.env)
      (convert_markdown_to_html (chars "$$\\begin\x7bcases\x7dx\\end\x7bcases\x7d$$")) = true := by
  decide

/-- C2 (amended): the placeholder tokens themselves are collision-free across
the shared index counter and the kinds — the derivation `(index, kind) ↦
MATH_PLACEHOLDER_{index}_TYPE_{kind}` is injective — although a token can
coincide with incidental input text and, for nested math, an inner
placeholder can be absent from the renderer text and survive restitution. -/
theorem c2_amended_placeholder_injective (i j : Nat) (k k2 : Kind)
    (h : placeholder_format i k = placeholder_format j k2) : i = j ∧ k = k2 :=
  placeholder_format_inj h

theorem c2_amended_placeholder_injective_witness : 3 = 3 ∧ Kind.display = Kind.display :=
  c2_amended_placeholder_injective 3 3 Kind.display Kind.display rfl

/-- C3 (counterexample): running both guards before markdown rendering — as
the claim states — is observably different from what the code does: on input
`[1]` the code wraps the citation after paragraph wrapping, the claimed order
would wrap it before (and the span then suppresses the paragraph). -/
theorem c3_counterexample_guard_order :
    convertClaimOrderC3 (chars "[1]") ≠ convert_markdown_to_html (chars "[1]") := by
  decide

/-- C3 (amended): after the References split, math extraction runs first,
then the parenthetical guard, then markdown rendering, and only then the
numeric-citation guard: `[1]` is wrapped inside the already-produced
paragraph, `(a)` is wrapped before paragraph wrapping (so no paragraph is
added), and parentheses inside math are never touched by the guard. -/
theorem c3_amended_guard_placement :
    convert_markdown_to_html (chars "[1]") =
      chars "<p><span class=\"notmath\">[1]</span></p>" ∧
    convert_markdown_to_html (chars "(a)") =
      chars "<span class=\"notmath\">(a)</span>" ∧
    convert_markdown_to_html (chars "$(a)$") =
      chars "<p>$(a)$</p>" ++ mathJaxScript := by
  refine ⟨by decide, by decide, by decide⟩

/-- C4: the inline-formatting phase in isolation does turn `[text](url)` into
an anchor tag, but in the pipeline the parenthesis guard has already wrapped
`(url)` in a span by the time inline formatting runs, so a markdown link in
the main body is never converted — the anchor never appears in the output. -/
theorem c4_markdown_link_never_becomes_anchor :
    convert_markdown_to_html (chars "[text](url)") =
      chars "[text]<span class=\"notmath\">(url)</span>" ∧
    containsSub (chars "<a href=") (convert_markdown_to_html (chars "[text](url)")) = false ∧
    process_regular_markdown (chars "[text](url)") = chars "<a href=\"url\">text</a>" := by
  refine ⟨by decide, by decide, by decide⟩

/-- C5 (counterexample): the list and blockquote wrappers are NOT mutually
exclusive: after the lines `- a` and `> b` the scanning state has both
`in_list` and `in_blockquote` true, because the blockquote branch opens its
wrapper without closing the list. -/
theorem c5_counterexample_wrappers_overlap :
    mdStates false false [chars "- a", chars "> b"] = [(true, false), (true, true)] := by
  decide

/-- C5 (amended): the closing discipline is one-directional.  A list-marker
line seen while the blockquote wrapper is open emits `</blockquote>` before
opening the list; but a blockquote-marker line seen while the list wrapper is
open leaves the list open, so the two wrappers can be open simultaneously and
the two closing tags are emitted interleaved at end of input. -/
theorem c5_amended_one_directional_closing :
    (∀ (inL : Bool) (line : List Char),
        (pyStrip line).head? ≠ some '>' →
        (chars "- ").isPrefixOf (pyStrip line) = true →
        mdLineStep inL true line =
          (true, false, chars "</blockquote>" ::
            ((if inL then [] else [chars "<ul>"]) ++
              [chars "<li>" ++ (pyStrip line).drop 2 ++ chars "</li>"]))) ∧
    process_regular_markdown (chars "> b\n- a") =
      chars "<blockquote>\nb\n</blockquote>\n<ul>\n<li>a</li>\n</ul>" ∧
    process_regular_markdown (chars "- a\n> b") =
      chars "<ul>\n<li>a</li>\n<blockquote>\nb\n</ul>\n</blockquote>" := by
  refine ⟨?_, by decide, by decide⟩
  intro inL line h1 h2
  unfold mdLineStep
  simp [h1, h2]

theorem c5_amended_one_directional_closing_witness :
    mdLineStep false true (chars "- x") =
      (true, false, chars "</blockquote>" ::
        ((if false then [] else [chars "<ul>"]) ++
          [chars "<li>" ++ (pyStrip (chars "- x")).drop 2 ++ chars "</li>"])) :=
  c5_amended_one_directional_closing.1 false (chars "- x") (by decide) (by decide)

/-- C6: restitution rewraps each stored block by kind — `$$...$$` for the
align, other-environment and display kinds, `$...$` for inline — doubling
every backslash once; the align environment is stored with `align` rewritten
to `align*`, so it is restored as `$$\begin{align*}...\end{align*}$$` with
doubled backslashes. -/
theorem c6_restitution_rewraps_by_kind :
    convert_markdown_to_html (chars "\\begin\x7balign\x7dx\\end\x7balign\x7d") =
      chars "<p>$$\\\\begin\x7balign*\x7dx\\\\end\x7balign*\x7d$$</p>" ++ mathJaxScript ∧
    convert_markdown_to_html (chars "\\begin\x7bcases\x7dy\\end\x7bcases\x7d") =
      chars "<p>$$\\\\begin\x7bcases\x7dy\\\\end\x7bcases\x7d$$</p>" ++ mathJaxScript ∧
    convert_markdown_to_html (chars "$$y$$") =
      chars "<p>$$y$$</p>" ++ mathJaxScript ∧
    convert_markdown_to_html (chars "$x$") =
      chars "<p>$x$</p>" ++ mathJaxScript := by
  refine ⟨by decide, by decide, by decide, by decide⟩

/-- C7: for `"# Title\n\nBody\n\n# References\n[1] Some work."` the body
paragraph is rendered by the main path, the References section is rendered
into a separate trailing container, its citation is formatted with the
References-specific styled spans, and the main-body citation guard's
`notmath` span never appears. -/
theorem c7_references_isolation :
    convert_markdown_to_html (chars "# Title\n\nBody\n\n# References\n[1] Some work.") =
      chars ("<h1>Title</h1>\n<p>Body</p>\n" ++
        "<div class=\"references\" data-mathjax=\"ignore\">\n    <style>\n" ++
        "        /* Prevent MathJax from interfering with reference formatting */\n" ++
        "        .references .citation-number strong \x7b font-weight: bold; font-style: normal; \x7d\n" ++
        "        .references .bracket-content em \x7b font-style: italic; font-weight: normal; \x7d\n" ++
        "        .references p \x7b font-weight: normal; \x7d\n" ++
        "        .references span \x7b font-weight: normal; \x7d\n" ++
        "        .references \x7b font-weight: normal; \x7d\n" ++
        "    </style>\n    <h1>References</h1>\n" ++
        "<span class=\"citation-number\"><span class=\"bracket-content\">" ++
        "<span class=\"bracket-content\">[<em><em><strong>1</strong></em></em>]</span>" ++
        "</span></span> Some work.\n</div>") ∧
    containsSub (chars "<p>Body</p>")
      (convert_markdown_to_html (chars "# Title\n\nBody\n\n# References\n[1] Some work.")) = true ∧
    containsSub (chars "<span class=\"notmath\">[1]</span>")
      (convert_markdown_to_html (chars "# Title\n\nBody\n\n# References\n[1] Some work.")) = false := by
  refine ⟨by decide, by decide, by decide⟩

/-- C8: the typesetting-refresh directive is appended exactly when the
`has_math` flag is raised, the flag is raised exactly when at least one math
block was extracted, and for a math-free input the output carries neither a
placeholder token nor the directive. -/
theorem c8_script_appended_iff_math :
    (∀ md : List Char,
        (convertCore md).2.hasMath = !(convertCore md).2.blocks.isEmpty) ∧
    (∀ md : List Char,
        convert_markdown_to_html md =
          (convertCore md).1 ++
            (if (convertCore md).2.hasMath then mathJaxScript else [])) ∧
    convert_markdown_to_html (chars "Just text.") = chars "<p>Just text.</p>" ∧
    containsSub (chars "MATH_PLACEHOLDER")
      (convert_markdown_to_html (chars "Just text.")) = false ∧
    containsSub (chars "<script>")
      (convert_markdown_to_html (chars "Just text.")) = false := by
  refine ⟨?_, ?_, by decide, by decide, by decide⟩
  · intro md
    rw [convertCore_state]
    exact extractAllPasses_flag (mainBodyOf md)
  · intro md
    unfold convert_markdown_to_html
    cases h : (convertCore md).2.hasMath <;> simp [h]

/-- C9: a `\begin{name}` with no matching `\end{name}` is matched by no
extraction pass and its characters pass through every later phase as literal
text (only the paragraph wrapper is added around the line); likewise an
unpaired `$$`.  The embedding is a total function, mirroring the absence of
any raise path in the source. -/
theorem c9_malformed_latex_left_literal :
    convert_markdown_to_html (chars "\\begin\x7bfoo\x7d x") =
      chars "<p>\\begin\x7bfoo\x7d x</p>" ∧
    convert_markdown_to_html (chars "a $$ b") = chars "<p>a $$ b</p>" := by
  refine ⟨by decide, by decide⟩

/-- C10: a blockquote line's content is `line.strip().lstrip('>').strip()` —
every leading `>` of the maximal run is stripped, not just one, so the text
right after stripping never starts with `>`; `>> deep` contributes `deep`
to a single-level blockquote and consecutive marker lines stay inside one
blockquote element. -/
theorem c10_blockquote_strips_all_markers :
    (∀ (line : List Char) (inL inB : Bool),
        (pyStrip line).head? = some '>' →
        mdLineStep inL inB line =
          (inL, true, (if inB then [] else [chars "<blockquote>"]) ++
            [pyStrip (lstripGT (pyStrip line))]) ∧
        (lstripGT (pyStrip line)).head? ≠ some '>') ∧
    process_regular_markdown (chars ">> deep") = chars "<blockquote>\ndeep\n</blockquote>" ∧
    process_regular_markdown (chars ">> a\n> b") = chars "<blockquote>\na\nb\n</blockquote>" := by
  refine ⟨?_, by decide, by decide⟩
  intro line inL inB h
  refine ⟨?_, head_lstripGT (pyStrip line)⟩
  unfold mdLineStep
  simp [h]

theorem c10_blockquote_strips_all_markers_witness :
    mdLineStep false false (chars ">> deep") =
      (false, true, (if false then [] else [chars "<blockquote>"]) ++
        [pyStrip (lstripGT (pyStrip (chars ">> deep")))]) ∧
    (lstripGT (pyStrip (chars ">> deep"))).head? ≠ some '>' :=
  c10_blockquote_strips_all_markers.1 (chars ">> deep") false false (by decide)

end ConvertPy
